import Mathlib

/-!
Verification development for a file-storage web application (Next.js +
Appwrite).  The repository's own logic consists of pure utility functions
(`src/lib/utils.ts`), client-side upload gating (`FileUploader.tsx`), and
server actions that wrap backend SDK calls (`user.actions.ts`,
`file.actions.ts`).

Modelling conventions:
* JavaScript strings are modelled as `List Char` (`JStr`); `String.split`
  with a one-character separator is modelled by `splitOnChar`.
* JavaScript numbers are modelled as `ℚ` (byte counts, which are
  non-negative integers in this application, as `ℕ`); `Number.toFixed(d)`
  becomes rounding to `d` decimal places over `ℚ`.
* Server actions become pure functions from the outcomes of their backend
  SDK calls (`Except AppError _`) to an `ActionOut`: the list of backend
  operations attempted, the list of error-log entries emitted, and either
  a normal return value or the exception propagated to the caller.
-/

/-- JavaScript strings, modelled as lists of characters. -/
abbrev JStr := List Char

/-- Literal JavaScript string. -/
def str (s : String) : JStr := s.toList

/-- Model of JavaScript `s.split(sep)` for a one-character separator
`sep`: the list of chunks between occurrences of `sep`.  Like in
JavaScript, the result is never empty (splitting the empty string gives
one empty chunk). -/
def splitOnChar (sep : Char) : JStr → List JStr
  | [] => [[]]
  | c :: cs =>
    match splitOnChar sep cs with
    | [] => [[]]
    | r :: rs => if c = sep then [] :: r :: rs else (c :: r) :: rs

/-- JavaScript `toLowerCase`, character by character. -/
def toLowerJ (s : JStr) : JStr := s.map Char.toLower

/-- The unit in which `convertFileSize` renders a byte count. -/
inductive SizeUnit
  | bytes
  | kb
  | mb
  | gb
deriving DecidableEq, Repr

/-- Rank of a unit, with larger units ranked higher. -/
def SizeUnit.rank : SizeUnit → ℕ
  | .bytes => 0
  | .kb => 1
  | .mb => 2
  | .gb => 3

/-- Number of bytes in one of the given unit. -/
def SizeUnit.bytesPer : SizeUnit → ℚ
  | .bytes => 1
  | .kb => 1024
  | .mb => 1024 * 1024
  | .gb => 1024 * 1024 * 1024

/-- Model of JavaScript `x.toFixed(d)` (read back as a number): round `x`
to `d` decimal places, ties away from zero for non-negative `x`. -/
def toFixedQ (d : ℕ) (x : ℚ) : ℚ := (round (x * 10 ^ d) : ℚ) / 10 ^ d

/-- The source applies `digits || 1` to the optional `digits` argument of
`convertFileSize`, so both `undefined` and `0` fall back to `1`. -/
def jsDigits : Option ℕ → ℕ
  | none => 1
  | some n => if n = 0 then 1 else n

/-- `convertFileSize` from `src/lib/utils.ts`, with the rendered string
abstracted as the pair (unit, numeric part). -/
def convertFileSize (sizeInBytes : ℕ) (digits : Option ℕ) : SizeUnit × ℚ :=
  if sizeInBytes < 1024 then
    (.bytes, (sizeInBytes : ℚ))
  else if sizeInBytes < 1024 * 1024 then
    (.kb, toFixedQ (jsDigits digits) ((sizeInBytes : ℚ) / 1024))
  else if sizeInBytes < 1024 * 1024 * 1024 then
    (.mb, toFixedQ (jsDigits digits) ((sizeInBytes : ℚ) / (1024 * 1024)))
  else
    (.gb, toFixedQ (jsDigits digits) ((sizeInBytes : ℚ) / (1024 * 1024 * 1024)))

/-- `calculatePercentage` from `src/lib/utils.ts`: percentage of the fixed
2 GB total, rounded via `toFixed(2)`.  The source applies no cap. -/
def calculatePercentage (sizeInBytes : ℕ) : ℚ :=
  let totalSizeInBytes : ℚ := 2 * 1024 * 1024 * 1024
  let percentage : ℚ := ((sizeInBytes : ℚ) / totalSizeInBytes) * 100
  toFixedQ 2 percentage

/-- Document extension list from `getFileType` in `src/lib/utils.ts`
(the source lists "afphoto" twice; the duplicate is kept). -/
def documentExtensions : List JStr :=
  [str "pdf", str "doc", str "docx", str "txt", str "xls", str "xlsx",
   str "csv", str "rtf", str "ods", str "ppt", str "odp", str "md",
   str "html", str "htm", str "epub", str "pages", str "fig", str "psd",
   str "ai", str "indd", str "xd", str "sketch", str "afdesign",
   str "afphoto", str "afphoto"]

def imageExtensions : List JStr :=
  [str "jpg", str "jpeg", str "png", str "gif", str "bmp", str "svg",
   str "webp"]

def videoExtensions : List JStr :=
  [str "mp4", str "avi", str "mov", str "mkv", str "webm"]

def audioExtensions : List JStr :=
  [str "mp3", str "wav", str "ogg", str "flac"]

/-- The extension computed by `getFileType`:
`fileName.split(".").pop()?.toLowerCase()`. -/
def extOf (fileName : JStr) : JStr :=
  toLowerJ ((splitOnChar '.' fileName).getLastD [])

/-- `getFileType` from `src/lib/utils.ts`: the pair (type, extension). -/
def getFileType (fileName : JStr) : JStr × JStr :=
  let extension := extOf fileName
  if extension = [] then (str "other", [])
  else if extension ∈ documentExtensions then (str "document", extension)
  else if extension ∈ imageExtensions then (str "image", extension)
  else if extension ∈ videoExtensions then (str "video", extension)
  else if extension ∈ audioExtensions then (str "audio", extension)
  else (str "other", extension)

/-- Ordering on formatted sizes: Bytes < KB < MB < GB, and results in the
same unit compare by their numeric part. -/
def sizeLe (a b : SizeUnit × ℚ) : Prop :=
  a.1.rank < b.1.rank ∨ (a.1 = b.1 ∧ a.2 ≤ b.2)

/-- `MAX_FILE_SIZE` from `src/constants/index.ts` (50 MB). -/
def MAX_FILE_SIZE : ℕ := 50 * 1024 * 1024

/-- A file dropped into the uploader (the fields `onDrop` reads). -/
structure DroppedFile where
  name : JStr
  size : ℕ
deriving DecidableEq, Repr

/-- Observable effects of `onDrop` in `FileUploader.tsx`. -/
inductive DropEffect
  | removeFromPending (name : JStr)
  | errorToast (name : JStr)
  | callUploadFile (name : JStr) (size : ℕ)
deriving DecidableEq, Repr

/-- Per-file handling inside `onDrop`: a file over `MAX_FILE_SIZE` is
filtered out of the pending list and gets an error toast; otherwise
`uploadFile` is called, and on a truthy result the file is removed from
the pending list.  `uploadOk` abstracts whether the `uploadFile` promise
resolved with a document. -/
def handleDroppedFile (uploadOk : DroppedFile → Bool) (f : DroppedFile) :
    List DropEffect :=
  if f.size > MAX_FILE_SIZE then
    [.removeFromPending f.name, .errorToast f.name]
  else
    [.callUploadFile f.name f.size] ++
      (if uploadOk f then [.removeFromPending f.name] else [])

/-- `onDrop` maps the per-file handler over all accepted files. -/
def onDrop (uploadOk : DroppedFile → Bool) (acceptedFiles : List DroppedFile) :
    List DropEffect :=
  acceptedFiles.flatMap (handleDroppedFile uploadOk)

/-- Exceptions observable in a server action. -/
inductive AppError
  | backend (code : ℕ)        -- an error thrown by an Appwrite SDK call
  | jsError (message : JStr)  -- a `new Error(message)` thrown by this code
  | redirectSignal (path : JStr)  -- the exception thrown by Next.js redirect()
deriving DecidableEq, Repr

/-- One `console.log` entry of an error, with the context message passed
to `handleError` when there is one. -/
structure LogEntry where
  error : AppError
  message : Option JStr
deriving DecidableEq, Repr

/-- Appwrite query objects built by this code.  `equal` and `contains`
take a list of values; where the source passes a single string, it is
modelled as a one-element list. -/
inductive Query
  | or (qs : List Query)
  | equal (attr : JStr) (vals : List JStr)
  | containsQ (attr : JStr) (vals : List JStr)
  | limit (n : ℕ)
  | orderAsc (attr : JStr)
  | orderDesc (attr : JStr)

/-- A backend SDK call attempted by a server action. -/
inductive Op
  | createEmailToken
  | createSession
  | accountGet
  | listUserDocs (queries : List Query)
  | createUserDoc
  | listFileDocs (queries : List Query)
  | createBucketFile
  | createFileDoc
  | updateFileDocName (fileId : JStr) (newName : JStr)
  | updateFileDocUsers (fileId : JStr) (emails : List JStr)
  | deleteFileDoc (fileId : JStr)
  | deleteBucketFile (bucketFileId : JStr)
  | deleteSession

/-- Outcome of one server-action invocation. -/
structure ActionOut (α : Type) where
  ops : List Op
  logs : List LogEntry
  result : Except AppError α

/-- `declare type FileType` from `src/types/index.d.ts`. -/
inductive FileType
  | document
  | image
  | video
  | audio
  | other
deriving DecidableEq, Repr

/-- A user document (the fields the actions read). -/
structure UserDoc where
  id : JStr        -- $id
  accountId : JStr
  email : JStr
deriving DecidableEq, Repr

/-- An Appwrite auth session / email token. -/
structure Session where
  id : JStr      -- $id
  userId : JStr
deriving DecidableEq, Repr

/-- The result of `account.get()`. -/
structure Account where
  id : JStr      -- $id
deriving DecidableEq, Repr

/-- A stored blob, as returned by `storage.createFile`. -/
structure BucketFile where
  id : JStr      -- $id
  name : JStr
  sizeOriginal : ℕ
deriving DecidableEq, Repr

/-- A file-metadata document (the fields `getTotalSpaceUsed` reads;
`$updatedAt` is abstracted as a numeric timestamp, `0` playing no special
role). -/
structure FileDoc where
  type : FileType
  size : ℕ
  updatedAt : ℕ
deriving DecidableEq, Repr

/-- `handleError` (identical in `user.actions.ts` and the file actions):
logs the error with a context message, then rethrows it. -/
def handleError {α : Type} (error : AppError) (message : JStr) :
    List LogEntry × Except AppError α :=
  ([⟨error, some message⟩], .error error)

/-- `getUserByEmail`: list user documents matching the email and return
the first (or null).  There is no try/catch here: a backend error
propagates raw. -/
def getUserByEmail (email : JStr)
    (listRes : Except AppError (List UserDoc)) : ActionOut (Option UserDoc) :=
  let ops := [Op.listUserDocs [Query.equal (str "email") [email]]]
  match listRes with
  | .error e => ⟨ops, [], .error e⟩
  | .ok docs => ⟨ops, [], .ok docs.head?⟩

/-- `sendEmailOTP`: create an email token; on failure, log and rethrow. -/
def sendEmailOTP (tokenRes : Except AppError Session) : ActionOut JStr :=
  match tokenRes with
  | .ok session => ⟨[.createEmailToken], [], .ok session.userId⟩
  | .error e =>
    let h := handleError (α := JStr) e (str "Failed to send email OTP")
    ⟨[.createEmailToken], h.1, h.2⟩

/-- `createAccount`: look up the user, send the OTP, and create a user
document when none exists.  This action has no try/catch of its own, so
errors propagate without an extra log entry. -/
def createAccount (email : JStr)
    (listRes : Except AppError (List UserDoc))
    (tokenRes : Except AppError Session)
    (createRes : Except AppError UserDoc) : ActionOut JStr :=
  let g := getUserByEmail email listRes
  match g.result with
  | .error e => ⟨g.ops, g.logs, .error e⟩
  | .ok existingUser =>
    let s := sendEmailOTP tokenRes
    match s.result with
    | .error e => ⟨g.ops ++ s.ops, g.logs ++ s.logs, .error e⟩
    | .ok accountId =>
      if accountId = [] then
        ⟨g.ops ++ s.ops, g.logs ++ s.logs,
         .error (.jsError (str "Failed to send an OTP"))⟩
      else
        match existingUser with
        | some _ => ⟨g.ops ++ s.ops, g.logs ++ s.logs, .ok accountId⟩
        | none =>
          match createRes with
          | .error e =>
            ⟨g.ops ++ s.ops ++ [.createUserDoc], g.logs ++ s.logs, .error e⟩
          | .ok _ =>
            ⟨g.ops ++ s.ops ++ [.createUserDoc], g.logs ++ s.logs, .ok accountId⟩

/-- `verifySecret`: create a session from the OTP; on failure, log and
rethrow.  (The session cookie write is not modelled.) -/
def verifySecret (sessionRes : Except AppError Session) : ActionOut JStr :=
  match sessionRes with
  | .ok session => ⟨[.createSession], [], .ok session.id⟩
  | .error e =>
    let h := handleError (α := JStr) e (str "Failed to verify OTP")
    ⟨[.createSession], h.1, h.2⟩

/-- `getCurrentUser`: fetch the session account, then the matching user
document.  The catch block only does `console.log(error)` and falls
through: on a backend error the action returns undefined (modelled as
`none`) instead of rethrowing. -/
def getCurrentUser (accountRes : Except AppError Account)
    (listRes : Except AppError (List UserDoc)) : ActionOut (Option UserDoc) :=
  match accountRes with
  | .error e => ⟨[.accountGet], [⟨e, none⟩], .ok none⟩
  | .ok result =>
    let ops := [Op.accountGet,
                Op.listUserDocs [Query.equal (str "accountId") [result.id]]]
    match listRes with
    | .error e => ⟨ops, [⟨e, none⟩], .ok none⟩
    | .ok docs => ⟨ops, [], .ok docs.head?⟩

/-- `signOutUser`: delete the session; on failure, log and rethrow — but
the `finally` block always calls `redirect("/sign-in")`, which throws, so
the caller always observes the redirect signal. -/
def signOutUser (deleteRes : Except AppError Unit) : ActionOut Unit :=
  match deleteRes with
  | .ok _ => ⟨[.deleteSession], [], .error (.redirectSignal (str "/sign-in"))⟩
  | .error e =>
    ⟨[.deleteSession], [⟨e, some (str "Failed to sign out user")⟩],
     .error (.redirectSignal (str "/sign-in"))⟩

/-- `signInUser`: look up the user; when found, send the OTP and return
the stored accountId, otherwise return null with a "User not found"
payload.  Errors are logged and rethrown by the catch block. -/
def signInUser (email : JStr)
    (listRes : Except AppError (List UserDoc))
    (tokenRes : Except AppError Session) : ActionOut (Option JStr) :=
  let g := getUserByEmail email listRes
  match g.result with
  | .error e =>
    let h := handleError (α := Option JStr) e (str "Failed to sign in user")
    ⟨g.ops, g.logs ++ h.1, h.2⟩
  | .ok none => ⟨g.ops, g.logs, .ok none⟩
  | .ok (some existingUser) =>
    let s := sendEmailOTP tokenRes
    match s.result with
    | .error e =>
      let h := handleError (α := Option JStr) e (str "Failed to sign in user")
      ⟨g.ops ++ s.ops, g.logs ++ s.logs ++ h.1, h.2⟩
    | .ok _ => ⟨g.ops ++ s.ops, g.logs ++ s.logs, .ok (some existingUser.accountId)⟩

/-- `uploadFile`: store the blob, then create the metadata document.  If
the document write fails, its `.catch` deletes the just-uploaded blob
(best effort) and `handleError` rethrows; the outer catch then logs again
and rethrows.  If the rollback deletion itself fails, its error replaces
the original one before the inner `handleError` runs, and only the outer
catch logs.  (The metadata payload and `revalidatePath` are not
modelled.) -/
def uploadFile (createFileRes : Except AppError BucketFile)
    (createDocRes : Except AppError FileDoc)
    (deleteFileRes : Except AppError Unit) : ActionOut FileDoc :=
  match createFileRes with
  | .error e =>
    let h := handleError (α := FileDoc) e (str "Failed to upload file")
    ⟨[.createBucketFile], h.1, h.2⟩
  | .ok bucketFile =>
    match createDocRes with
    | .ok newFile => ⟨[.createBucketFile, .createFileDoc], [], .ok newFile⟩
    | .error e =>
      let ops := [Op.createBucketFile, Op.createFileDoc,
                  Op.deleteBucketFile bucketFile.id]
      match deleteFileRes with
      | .ok _ =>
        ⟨ops,
         [⟨e, some (str "Failed to create file document")⟩,
          ⟨e, some (str "Failed to upload file")⟩],
         .error e⟩
      | .error d => ⟨ops, [⟨d, some (str "Failed to upload file")⟩], .error d⟩

/-- The filter/search/limit queries `createQueries` pushes before the
ordering clause. -/
def baseQueries (currentUser : UserDoc) (types : List JStr)
    (searchText : JStr) (limit : Option ℕ) : List Query :=
  let queries := [Query.or [Query.equal (str "owner") [currentUser.id],
                            Query.containsQ (str "users") [currentUser.email]]]
  let queries :=
    if types.length > 0 then queries ++ [Query.equal (str "type") types]
    else queries
  let queries :=
    if searchText ≠ [] then queries ++ [Query.containsQ (str "name") [searchText]]
    else queries
  match limit with
  | some n => if n ≠ 0 then queries ++ [Query.limit n] else queries
  | none => queries

/-- `createQueries`: the base queries plus, for a truthy `sort`, one
ordering clause obtained by splitting `sort` on "-": ascending exactly
when the second chunk is "asc". -/
def createQueries (currentUser : UserDoc) (types : List JStr)
    (searchText : JStr) (sort : JStr) (limit : Option ℕ) : List Query :=
  let queries := baseQueries currentUser types searchText limit
  if sort ≠ [] then
    let parts := splitOnChar '-' sort
    let sortBy := parts.getD 0 []
    let orderBy := parts[1]?
    queries ++ [if orderBy = some (str "asc") then Query.orderAsc sortBy
                else Query.orderDesc sortBy]
  else queries

/-- The default `sort` parameter of `getFiles`. -/
def getFilesDefaultSort : JStr := str "$createdAt-desc"

/-- `getFiles`: resolve the current user (throwing "User not found" when
absent), build the queries, and list the matching file documents; the
catch block logs and rethrows. -/
def getFiles (accountRes : Except AppError Account)
    (userListRes : Except AppError (List UserDoc))
    (filesRes : Except AppError (List FileDoc))
    (types : List JStr := []) (searchText : JStr := [])
    (sort : JStr := getFilesDefaultSort) (limit : Option ℕ := none) :
    ActionOut (List FileDoc) :=
  let g := getCurrentUser accountRes userListRes
  match g.result with
  | .error e =>
    let h := handleError (α := List FileDoc) e (str "Failed to get files")
    ⟨g.ops, g.logs ++ h.1, h.2⟩
  | .ok none =>
    let h := handleError (α := List FileDoc)
      (.jsError (str "User not found")) (str "Failed to get files")
    ⟨g.ops, g.logs ++ h.1, h.2⟩
  | .ok (some currentUser) =>
    let queries := createQueries currentUser types searchText sort limit
    match filesRes with
    | .error e =>
      let h := handleError (α := List FileDoc) e (str "Failed to get files")
      ⟨g.ops ++ [.listFileDocs queries], g.logs ++ h.1, h.2⟩
    | .ok files => ⟨g.ops ++ [.listFileDocs queries], g.logs, .ok files⟩

/-- `renameFile`: update the document name to `name.extension`; on
failure, log and rethrow. -/
def renameFile (fileId : JStr) (name : JStr) (extension : JStr)
    (updateRes : Except AppError FileDoc) : ActionOut FileDoc :=
  let ops := [Op.updateFileDocName fileId (name ++ '.' :: extension)]
  match updateRes with
  | .ok updatedFile => ⟨ops, [], .ok updatedFile⟩
  | .error e =>
    let h := handleError (α := FileDoc) e (str "Failed to rename file")
    ⟨ops, h.1, h.2⟩

/-- `updateFileUsers`: replace the shared-with email list; on failure,
log and rethrow. -/
def updateFileUsers (fileId : JStr) (emails : List JStr)
    (updateRes : Except AppError FileDoc) : ActionOut FileDoc :=
  let ops := [Op.updateFileDocUsers fileId emails]
  match updateRes with
  | .ok updatedFile => ⟨ops, [], .ok updatedFile⟩
  | .error e =>
    let h := handleError (α := FileDoc) e (str "Failed to update file users")
    ⟨ops, h.1, h.2⟩

/-- `deleteFile`: delete the metadata document, then (the SDK resolves
with a truthy object) the stored blob; on failure, log and rethrow. -/
def deleteFile (fileId : JStr) (bucketFileId : JStr)
    (deleteDocRes : Except AppError Unit)
    (deleteBlobRes : Except AppError Unit) : ActionOut JStr :=
  match deleteDocRes with
  | .error e =>
    let h := handleError (α := JStr) e (str "Failed to delete file")
    ⟨[.deleteFileDoc fileId], h.1, h.2⟩
  | .ok _ =>
    let ops := [Op.deleteFileDoc fileId, Op.deleteBucketFile bucketFileId]
    match deleteBlobRes with
    | .error e =>
      let h := handleError (α := JStr) e (str "Failed to delete file")
      ⟨ops, h.1, h.2⟩
    | .ok _ => ⟨ops, [], .ok (str "success")⟩

/-- Per-type usage entry: accumulated size and the latest `$updatedAt`
(`none` models the initial empty string). -/
structure TypeUsage where
  size : ℕ
  latestDate : Option ℕ
deriving DecidableEq, Repr

/-- The usage tracker initialised (and eventually returned) by
`getTotalSpaceUsed`. -/
structure TotalSpace where
  image : TypeUsage
  document : TypeUsage
  video : TypeUsage
  audio : TypeUsage
  other : TypeUsage
  used : ℕ
  all : ℕ
deriving DecidableEq, Repr

def initialTotalSpace : TotalSpace :=
  ⟨⟨0, none⟩, ⟨0, none⟩, ⟨0, none⟩, ⟨0, none⟩, ⟨0, none⟩, 0,
   2 * 1024 * 1024 * 1024⟩

/-- `totalSpace[fileType]` as a read. -/
def TotalSpace.getUsage (ts : TotalSpace) : FileType → TypeUsage
  | .image => ts.image
  | .document => ts.document
  | .video => ts.video
  | .audio => ts.audio
  | .other => ts.other

/-- `totalSpace[fileType]` as a write. -/
def TotalSpace.setUsage (ts : TotalSpace) (t : FileType) (u : TypeUsage) :
    TotalSpace :=
  match t with
  | .image => { ts with image := u }
  | .document => { ts with document := u }
  | .video => { ts with video := u }
  | .audio => { ts with audio := u }
  | .other => { ts with other := u }

/-- The latest-date update: take the incoming date when none is recorded
yet ("" is falsy) or when it is strictly newer. -/
def updLatest (acc : Option ℕ) (d : ℕ) : Option ℕ :=
  match acc with
  | none => some d
  | some m => if m < d then some d else some m

/-- The body of the `files.documents.forEach` loop in
`getTotalSpaceUsed`. -/
def stepFile (ts : TotalSpace) (file : FileDoc) : TotalSpace :=
  let u := ts.getUsage file.type
  let ts1 := ts.setUsage file.type
    ⟨u.size + file.size, updLatest u.latestDate file.updatedAt⟩
  { ts1 with used := ts1.used + file.size }

/-- The aggregation performed by `getTotalSpaceUsed` over the listed
files. -/
def totalSpaceOf (files : List FileDoc) : TotalSpace :=
  files.foldl stepFile initialTotalSpace

/-- `getTotalSpaceUsed`: resolve the current user (throwing when not
authenticated), list the files owned by them, and fold up the usage
tracker; the catch block logs and rethrows. -/
def getTotalSpaceUsed (accountRes : Except AppError Account)
    (userListRes : Except AppError (List UserDoc))
    (filesRes : Except AppError (List FileDoc)) : ActionOut TotalSpace :=
  let g := getCurrentUser accountRes userListRes
  match g.result with
  | .error e =>
    let h := handleError (α := TotalSpace) e
      (str "Error calculating total space used")
    ⟨g.ops, g.logs ++ h.1, h.2⟩
  | .ok none =>
    let h := handleError (α := TotalSpace)
      (.jsError (str "User is not authenticated."))
      (str "Error calculating total space used")
    ⟨g.ops, g.logs ++ h.1, h.2⟩
  | .ok (some currentUser) =>
    let ops := g.ops ++
      [Op.listFileDocs [Query.equal (str "owner") [currentUser.id]]]
    match filesRes with
    | .error e =>
      let h := handleError (α := TotalSpace) e
        (str "Error calculating total space used")
      ⟨ops, g.logs ++ h.1, h.2⟩
    | .ok files => ⟨ops, g.logs, .ok (totalSpaceOf files)⟩

/-- An action outcome that logged the error with the given context
message and rethrew that same error. -/
def logsAndRethrows {α : Type} (out : ActionOut α) (e : AppError) (m : JStr) :
    Prop :=
  out.result = .error e ∧ LogEntry.mk e (some m) ∈ out.logs

/-- Whether a query is one of the two ordering clauses. -/
def isOrderClause : Query → Bool
  | .orderAsc _ => true
  | .orderDesc _ => true
  | _ => false

/-! ## Theorems -/

theorem splitOnChar_ne_nil (sep : Char) (s : JStr) : splitOnChar sep s ≠ [] := by
  cases s with
  | nil => simp [splitOnChar]
  | cons c cs =>
    simp only [splitOnChar]
    rcases h : splitOnChar sep cs with _ | ⟨r, rs⟩
    · simp
    · by_cases hc : c = sep <;> simp [hc]

/-- A string not containing the separator splits into a single chunk. -/
theorem splitOnChar_of_not_mem {sep : Char} {s : JStr} (h : sep ∉ s) :
    splitOnChar sep s = [s] := by
  induction s with
  | nil => rfl
  | cons c cs ih =>
    have hc : c ≠ sep := fun hcs => h (hcs ▸ List.mem_cons_self c cs)
    have hcs : sep ∉ cs := fun hm => h (List.mem_cons_of_mem c hm)
    simp [splitOnChar, ih hcs, hc]

/-- Splitting `a ++ sep :: b` where neither part contains the separator
yields exactly the two chunks. -/
theorem splitOnChar_append {sep : Char} {a b : JStr}
    (ha : sep ∉ a) (hb : sep ∉ b) :
    splitOnChar sep (a ++ sep :: b) = [a, b] := by
  induction a with
  | nil => simp [splitOnChar, splitOnChar_of_not_mem hb]
  | cons c cs ih =>
    have hc : c ≠ sep := fun hcs => ha (hcs ▸ List.mem_cons_self c cs)
    have hcs : sep ∉ cs := fun hm => ha (List.mem_cons_of_mem c hm)
    simp [splitOnChar, ih hcs, hc]

theorem nil_not_mem_documentExtensions : ([] : JStr) ∉ documentExtensions := by decide

theorem nil_not_mem_imageExtensions : ([] : JStr) ∉ imageExtensions := by decide

theorem nil_not_mem_videoExtensions : ([] : JStr) ∉ videoExtensions := by decide

theorem nil_not_mem_audioExtensions : ([] : JStr) ∉ audioExtensions := by decide

theorem image_disjoint_document :
    ∀ x ∈ imageExtensions, x ∉ documentExtensions := by decide

theorem video_disjoint_document :
    ∀ x ∈ videoExtensions, x ∉ documentExtensions := by decide

theorem video_disjoint_image :
    ∀ x ∈ videoExtensions, x ∉ imageExtensions := by decide

theorem audio_disjoint_document :
    ∀ x ∈ audioExtensions, x ∉ documentExtensions := by decide

theorem audio_disjoint_image :
    ∀ x ∈ audioExtensions, x ∉ imageExtensions := by decide

theorem audio_disjoint_video :
    ∀ x ∈ audioExtensions, x ∉ videoExtensions := by decide

/-- C1: the claim says `calculatePercentage` caps its result at 100, and
the function's own doc comment promises "max: 100"; the code applies no
cap.  At 4 GB (twice the fixed 2 GB total) the function returns 200. -/
theorem calculatePercentage_exceeds_100_at_4GB :
    calculatePercentage (4 * 1024 * 1024 * 1024) = 200 ∧
    ¬ calculatePercentage (4 * 1024 * 1024 * 1024) ≤ 100 := by
  constructor
  · norm_num [calculatePercentage, toFixedQ, round_eq]
  · norm_num [calculatePercentage, toFixedQ, round_eq]

/-- C5: `getFileType` always returns a type in the closed set
document/image/video/audio/other; an extension in one of the four lists
yields the corresponding type, and any other extension falls back to
"other". -/
theorem getFileType_closed_set (fileName : JStr) :
    (getFileType fileName).1 ∈
      [str "document", str "image", str "video", str "audio", str "other"] ∧
    (extOf fileName ∈ documentExtensions →
      (getFileType fileName).1 = str "document") ∧
    (extOf fileName ∈ imageExtensions → (getFileType fileName).1 = str "image") ∧
    (extOf fileName ∈ videoExtensions → (getFileType fileName).1 = str "video") ∧
    (extOf fileName ∈ audioExtensions → (getFileType fileName).1 = str "audio") ∧
    (extOf fileName ∉ documentExtensions → extOf fileName ∉ imageExtensions →
      extOf fileName ∉ videoExtensions → extOf fileName ∉ audioExtensions →
      (getFileType fileName).1 = str "other") := by
  simp only [getFileType]
  split_ifs with h1 h2 h3 h4 h5
  · exact ⟨.tail _ (.tail _ (.tail _ (.tail _ (.head _)))),
      fun hm => absurd (h1 ▸ hm) nil_not_mem_documentExtensions,
      fun hm => absurd (h1 ▸ hm) nil_not_mem_imageExtensions,
      fun hm => absurd (h1 ▸ hm) nil_not_mem_videoExtensions,
      fun hm => absurd (h1 ▸ hm) nil_not_mem_audioExtensions,
      fun _ _ _ _ => rfl⟩
  · exact ⟨.head _, fun _ => rfl,
      fun hm => absurd h2 (image_disjoint_document _ hm),
      fun hm => absurd h2 (video_disjoint_document _ hm),
      fun hm => absurd h2 (audio_disjoint_document _ hm),
      fun hnd _ _ _ => absurd h2 hnd⟩
  · exact ⟨.tail _ (.head _), fun hm => absurd hm h2, fun _ => rfl,
      fun hm => absurd h3 (video_disjoint_image _ hm),
      fun hm => absurd h3 (audio_disjoint_image _ hm),
      fun _ hni _ _ => absurd h3 hni⟩
  · exact ⟨.tail _ (.tail _ (.head _)), fun hm => absurd hm h2,
      fun hm => absurd hm h3,
      fun _ => rfl,
      fun hm => absurd h4 (audio_disjoint_video _ hm),
      fun _ _ hnv _ => absurd h4 hnv⟩
  · exact ⟨.tail _ (.tail _ (.tail _ (.head _))), fun hm => absurd hm h2,
      fun hm => absurd hm h3,
      fun hm => absurd hm h4, fun _ => rfl,
      fun _ _ _ hna => absurd h5 hna⟩
  · exact ⟨.tail _ (.tail _ (.tail _ (.tail _ (.head _)))),
      fun hm => absurd hm h2, fun hm => absurd hm h3,
      fun hm => absurd hm h4, fun hm => absurd hm h5,
      fun _ _ _ _ => rfl⟩

/-- Companion evaluation of C5's theorem at a concrete filename. -/
theorem getFileType_closed_set_witness :
    (getFileType (str "track.mp3")).1 = str "audio" :=
  (getFileType_closed_set (str "track.mp3")).2.2.2.2.1 (by decide)

/-- C6: `convertFileSize` selects its unit by 1024-byte thresholds, and the
numeric part is the size divided by the unit's byte count (rounded via
`toFixed` in the KB/MB/GB branches, raw in the Bytes branch). -/
theorem convertFileSize_unit_thresholds (sizeInBytes : ℕ) (digits : Option ℕ) :
    ((convertFileSize sizeInBytes digits).1 = .bytes ↔ sizeInBytes < 1024) ∧
    ((convertFileSize sizeInBytes digits).1 = .kb ↔
      1024 ≤ sizeInBytes ∧ sizeInBytes < 1024 * 1024) ∧
    ((convertFileSize sizeInBytes digits).1 = .mb ↔
      1024 * 1024 ≤ sizeInBytes ∧ sizeInBytes < 1024 * 1024 * 1024) ∧
    ((convertFileSize sizeInBytes digits).1 = .gb ↔
      1024 * 1024 * 1024 ≤ sizeInBytes) ∧
    (sizeInBytes < 1024 → (convertFileSize sizeInBytes digits).2 =
      (sizeInBytes : ℚ) / SizeUnit.bytes.bytesPer) ∧
    (1024 ≤ sizeInBytes → (convertFileSize sizeInBytes digits).2 =
      toFixedQ (jsDigits digits)
        ((sizeInBytes : ℚ) / ((convertFileSize sizeInBytes digits).1).bytesPer)) := by
  unfold convertFileSize
  split_ifs with h1 h2 h3
  · exact ⟨iff_of_true rfl h1,
      iff_of_false (by simp) (by omega),
      iff_of_false (by simp) (by omega),
      iff_of_false (by simp) (by omega),
      fun _ => by simp [SizeUnit.bytesPer],
      fun hx => absurd hx (by omega)⟩
  · exact ⟨iff_of_false (by simp) (by omega),
      iff_of_true rfl (by omega),
      iff_of_false (by simp) (by omega),
      iff_of_false (by simp) (by omega),
      fun hx => absurd hx (by omega),
      fun _ => by simp [SizeUnit.bytesPer]⟩
  · exact ⟨iff_of_false (by simp) (by omega),
      iff_of_false (by simp) (by omega),
      iff_of_true rfl (by omega),
      iff_of_false (by simp) (by omega),
      fun hx => absurd hx (by omega),
      fun _ => by simp [SizeUnit.bytesPer]⟩
  · exact ⟨iff_of_false (by simp) (by omega),
      iff_of_false (by simp) (by omega),
      iff_of_false (by simp) (by omega),
      iff_of_true rfl (by omega),
      fun hx => absurd hx (by omega),
      fun _ => by simp [SizeUnit.bytesPer]⟩

/-- Companion evaluation of C6's theorem at a concrete size. -/
theorem convertFileSize_unit_thresholds_witness :
    (convertFileSize 2048 none).1 = SizeUnit.kb :=
  (convertFileSize_unit_thresholds 2048 none).2.1.mpr (by norm_num)

/-- Rounding to a fixed number of decimal places is monotone. -/
theorem toFixedQ_mono (d : ℕ) {x y : ℚ} (h : x ≤ y) :
    toFixedQ d x ≤ toFixedQ d y := by
  have h10 : (0 : ℚ) < 10 ^ d := by positivity
  have hr : round (x * 10 ^ d) ≤ round (y * 10 ^ d) := by
    rw [round_eq, round_eq]
    exact Int.floor_le_floor (by nlinarith)
  unfold toFixedQ
  have hc : ((round (x * 10 ^ d) : ℤ) : ℚ) ≤ ((round (y * 10 ^ d) : ℤ) : ℚ) := by
    exact_mod_cast hr
  gcongr

/-- C7: `convertFileSize` is monotone under the unit-then-number order. -/
theorem convertFileSize_mono (digits : Option ℕ) {a b : ℕ} (hab : a ≤ b) :
    sizeLe (convertFileSize a digits) (convertFileSize b digits) := by
  have hq : (a : ℚ) ≤ (b : ℚ) := by exact_mod_cast hab
  unfold convertFileSize
  split_ifs <;> simp [sizeLe, SizeUnit.rank] <;>
    first
      | (exfalso; omega)
      | omega
      | exact_mod_cast hq
      | exact toFixedQ_mono _ (by gcongr)

/-- Companion evaluation of C7's theorem at concrete sizes. -/
theorem convertFileSize_mono_witness :
    sizeLe (convertFileSize 500 none) (convertFileSize 2048 none) :=
  convertFileSize_mono none (by norm_num)

/-- C10: a filename without a dot is classified by its whole lowercased
name (so "pdf" is a document), and the fallback (other, "") is returned
exactly when the computed extension is empty. -/
theorem getFileType_no_dot_and_empty_fallback :
    (∀ fileName : JStr, '.' ∉ fileName → extOf fileName = toLowerJ fileName) ∧
    (∀ fileName : JStr,
      getFileType fileName = (str "other", []) ↔ extOf fileName = []) ∧
    getFileType (str "pdf") = (str "document", str "pdf") := by
  refine ⟨fun fileName h => ?_, fun fileName => ?_, by decide⟩
  · simp [extOf, splitOnChar_of_not_mem h]
  · simp only [getFileType]
    split_ifs with h1 h2 h3 h4 h5
    · simp [h1]
    · simp only [h1, iff_false]
      intro he
      injection he with hfst hsnd
      exact absurd hfst (by decide)
    · simp only [h1, iff_false]
      intro he
      injection he with hfst hsnd
      exact absurd hfst (by decide)
    · simp only [h1, iff_false]
      intro he
      injection he with hfst hsnd
      exact absurd hfst (by decide)
    · simp only [h1, iff_false]
      intro he
      injection he with hfst hsnd
      exact absurd hfst (by decide)
    · simp only [h1, iff_false]
      intro he
      injection he with hfst hsnd
      exact h1 hsnd

/-- Companion evaluation of C10's theorem at a concrete dotless name. -/
theorem getFileType_no_dot_witness :
    extOf (str "pdf") = toLowerJ (str "pdf") :=
  getFileType_no_dot_and_empty_fallback.1 (str "pdf") (by decide)

/-- C9: a dropped file larger than `MAX_FILE_SIZE` is removed from the
pending list and toasted instead of uploaded, and every `uploadFile` call
made by `onDrop` is for a size within the limit. -/
theorem fileUploader_size_gate (uploadOk : DroppedFile → Bool)
    (acceptedFiles : List DroppedFile) :
    (∀ f ∈ acceptedFiles, f.size > MAX_FILE_SIZE →
      handleDroppedFile uploadOk f =
        [.removeFromPending f.name, .errorToast f.name]) ∧
    (∀ name size, DropEffect.callUploadFile name size ∈
        onDrop uploadOk acceptedFiles → size ≤ MAX_FILE_SIZE) := by
  constructor
  · intro f _ hbig
    simp [handleDroppedFile, hbig]
  · intro name size hmem
    simp only [onDrop, List.mem_flatMap] at hmem
    obtain ⟨f, hf, he⟩ := hmem
    by_cases hbig : f.size > MAX_FILE_SIZE
    · simp [handleDroppedFile, hbig] at he
    · simp [handleDroppedFile, hbig] at he
      rw [he.2]
      exact Nat.le_of_not_lt hbig

/-- Companion evaluation of C9's theorem on a concrete oversized file. -/
theorem fileUploader_size_gate_witness :
    handleDroppedFile (fun _ => true) ⟨str "big.zip", MAX_FILE_SIZE + 1⟩ =
      [.removeFromPending (str "big.zip"), .errorToast (str "big.zip")] :=
  (fileUploader_size_gate (fun _ => true)
      [⟨str "big.zip", MAX_FILE_SIZE + 1⟩]).1
    _ (List.mem_singleton_self _) (Nat.lt_succ_self _)

theorem sendEmailOTP_err (e : AppError) :
    logsAndRethrows (sendEmailOTP (.error e)) e
      (str "Failed to send email OTP") := by
  simp [logsAndRethrows, sendEmailOTP, handleError]

theorem verifySecret_err (e : AppError) :
    logsAndRethrows (verifySecret (.error e)) e (str "Failed to verify OTP") := by
  simp [logsAndRethrows, verifySecret, handleError]

theorem signInUser_err_lookup (e : AppError) (email : JStr)
    (tokenRes : Except AppError Session) :
    logsAndRethrows (signInUser email (.error e) tokenRes) e
      (str "Failed to sign in user") := by
  simp [logsAndRethrows, signInUser, getUserByEmail, handleError]

theorem signInUser_err_otp (e : AppError) (email : JStr) (u : UserDoc)
    (rest : List UserDoc) :
    logsAndRethrows (signInUser email (.ok (u :: rest)) (.error e)) e
      (str "Failed to sign in user") := by
  simp [logsAndRethrows, signInUser, getUserByEmail, sendEmailOTP, handleError]

theorem uploadFile_err_blob (e : AppError) (cd : Except AppError FileDoc)
    (df : Except AppError Unit) :
    logsAndRethrows (uploadFile (.error e) cd df) e
      (str "Failed to upload file") := by
  simp [logsAndRethrows, uploadFile, handleError]

theorem uploadFile_err_doc (e : AppError) (bf : BucketFile) :
    logsAndRethrows (uploadFile (.ok bf) (.error e) (.ok ())) e
      (str "Failed to upload file") := by
  simp [logsAndRethrows, uploadFile, handleError]

theorem getFiles_err (e : AppError) (acct : Account) (u : UserDoc)
    (rest : List UserDoc) (types : List JStr) (searchText : JStr)
    (sort : JStr) (limit : Option ℕ) :
    logsAndRethrows
      (getFiles (.ok acct) (.ok (u :: rest)) (.error e) types searchText sort
        limit) e (str "Failed to get files") := by
  simp [logsAndRethrows, getFiles, getCurrentUser, handleError]

theorem renameFile_err (e : AppError) (fileId name ext : JStr) :
    logsAndRethrows (renameFile fileId name ext (.error e)) e
      (str "Failed to rename file") := by
  simp [logsAndRethrows, renameFile, handleError]

theorem updateFileUsers_err (e : AppError) (fileId : JStr) (emails : List JStr) :
    logsAndRethrows (updateFileUsers fileId emails (.error e)) e
      (str "Failed to update file users") := by
  simp [logsAndRethrows, updateFileUsers, handleError]

theorem deleteFile_err_doc (e : AppError) (fileId bucketFileId : JStr)
    (dbr : Except AppError Unit) :
    logsAndRethrows (deleteFile fileId bucketFileId (.error e) dbr) e
      (str "Failed to delete file") := by
  simp [logsAndRethrows, deleteFile, handleError]

theorem deleteFile_err_blob (e : AppError) (fileId bucketFileId : JStr) :
    logsAndRethrows (deleteFile fileId bucketFileId (.ok ()) (.error e)) e
      (str "Failed to delete file") := by
  simp [logsAndRethrows, deleteFile, handleError]

theorem getTotalSpaceUsed_err (e : AppError) (acct : Account) (u : UserDoc)
    (rest : List UserDoc) :
    logsAndRethrows (getTotalSpaceUsed (.ok acct) (.ok (u :: rest)) (.error e))
      e (str "Error calculating total space used") := by
  simp [logsAndRethrows, getTotalSpaceUsed, getCurrentUser, handleError]

theorem getCurrentUser_err_account (e : AppError)
    (listRes : Except AppError (List UserDoc)) :
    (getCurrentUser (.error e) listRes).result = .ok none ∧
    LogEntry.mk e none ∈ (getCurrentUser (.error e) listRes).logs := by
  simp [getCurrentUser]

theorem getCurrentUser_err_list (e : AppError) (acct : Account) :
    (getCurrentUser (.ok acct) (.error e)).result = .ok none ∧
    LogEntry.mk e none ∈ (getCurrentUser (.ok acct) (.error e)).logs := by
  simp [getCurrentUser]

theorem createAccount_err_unlogged (e : AppError) (email : JStr)
    (tokenRes : Except AppError Session) (createRes : Except AppError UserDoc) :
    (createAccount email (.error e) tokenRes createRes).result = .error e ∧
    (createAccount email (.error e) tokenRes createRes).logs = [] := by
  simp [createAccount, getUserByEmail]

theorem signOutUser_redirect (deleteRes : Except AppError Unit) :
    (signOutUser deleteRes).result = .error (.redirectSignal (str "/sign-in")) := by
  rcases deleteRes with e | u <;> simp [signOutUser]

theorem signOutUser_logs (e : AppError) :
    LogEntry.mk e (some (str "Failed to sign out user")) ∈
      (signOutUser (.error e)).logs := by
  simp [signOutUser]

theorem sendEmailOTP_nodup (r : Except AppError Session) :
    (sendEmailOTP r).ops.Nodup := by
  rcases r with e | s <;> simp [sendEmailOTP, handleError]

theorem verifySecret_nodup (r : Except AppError Session) :
    (verifySecret r).ops.Nodup := by
  rcases r with e | s <;> simp [verifySecret, handleError]

theorem getCurrentUser_nodup (a : Except AppError Account)
    (l : Except AppError (List UserDoc)) : (getCurrentUser a l).ops.Nodup := by
  rcases a with e | acct <;> rcases l with e' | docs <;>
    simp [getCurrentUser]

theorem getUserByEmail_nodup (email : JStr)
    (l : Except AppError (List UserDoc)) : (getUserByEmail email l).ops.Nodup := by
  rcases l with e | docs <;> simp [getUserByEmail]

theorem signInUser_nodup (email : JStr) (l : Except AppError (List UserDoc))
    (t : Except AppError Session) : (signInUser email l t).ops.Nodup := by
  rcases l with e | docs
  · simp [signInUser, getUserByEmail, handleError]
  · rcases docs with _ | ⟨u, rest⟩ <;> rcases t with e' | s <;>
      simp [signInUser, getUserByEmail, sendEmailOTP, handleError]

theorem createAccount_nodup (email : JStr) (l : Except AppError (List UserDoc))
    (t : Except AppError Session) (c : Except AppError UserDoc) :
    (createAccount email l t c).ops.Nodup := by
  rcases l with e | docs
  · simp [createAccount, getUserByEmail, handleError]
  · rcases t with e' | s
    · simp [createAccount, getUserByEmail, sendEmailOTP, handleError]
    · rcases docs with _ | ⟨u, rest⟩ <;> rcases c with e'' | d <;>
        by_cases hs : s.userId = [] <;>
        simp [createAccount, getUserByEmail, sendEmailOTP, handleError, hs]

theorem signOutUser_nodup (d : Except AppError Unit) :
    (signOutUser d).ops.Nodup := by
  rcases d with e | u <;> simp [signOutUser]

theorem uploadFile_nodup (cf : Except AppError BucketFile)
    (cd : Except AppError FileDoc) (df : Except AppError Unit) :
    (uploadFile cf cd df).ops.Nodup := by
  rcases cf with e | bf
  · simp [uploadFile, handleError]
  · rcases cd with e | d
    · rcases df with e' | u <;> simp [uploadFile, handleError]
    · simp [uploadFile]

theorem getFiles_nodup (a : Except AppError Account)
    (ul : Except AppError (List UserDoc)) (f : Except AppError (List FileDoc))
    (types : List JStr) (searchText : JStr) (sort : JStr) (limit : Option ℕ) :
    (getFiles a ul f types searchText sort limit).ops.Nodup := by
  rcases a with e | acct
  · simp [getFiles, getCurrentUser, handleError]
  · rcases ul with e' | docs
    · simp [getFiles, getCurrentUser, handleError]
    · rcases docs with _ | ⟨u, rest⟩
      · simp [getFiles, getCurrentUser, handleError]
      · rcases f with e'' | files <;>
          simp [getFiles, getCurrentUser, handleError]

theorem renameFile_nodup (fileId name ext : JStr)
    (u : Except AppError FileDoc) : (renameFile fileId name ext u).ops.Nodup := by
  rcases u with e | d <;> simp [renameFile, handleError]

theorem updateFileUsers_nodup (fileId : JStr) (emails : List JStr)
    (u : Except AppError FileDoc) :
    (updateFileUsers fileId emails u).ops.Nodup := by
  rcases u with e | d <;> simp [updateFileUsers, handleError]

theorem deleteFile_nodup (fileId bucketFileId : JStr)
    (d1 d2 : Except AppError Unit) :
    (deleteFile fileId bucketFileId d1 d2).ops.Nodup := by
  rcases d1 with e | u <;> rcases d2 with e' | u' <;>
    simp [deleteFile, handleError]

theorem getTotalSpaceUsed_nodup (a : Except AppError Account)
    (ul : Except AppError (List UserDoc))
    (f : Except AppError (List FileDoc)) :
    (getTotalSpaceUsed a ul f).ops.Nodup := by
  rcases a with e | acct
  · simp [getTotalSpaceUsed, getCurrentUser, handleError]
  · rcases ul with e' | docs
    · simp [getTotalSpaceUsed, getCurrentUser, handleError]
    · rcases docs with _ | ⟨u, rest⟩
      · simp [getTotalSpaceUsed, getCurrentUser, handleError]
      · rcases f with e'' | files <;>
          simp [getTotalSpaceUsed, getCurrentUser, handleError]

/-- C2 counterexample: with the backend `account.get()` call failing,
`getCurrentUser` returns normally (undefined, modelled `none`) instead of
rethrowing the backend error — the catch block only logs. -/
theorem getCurrentUser_swallows_backend_error :
    (getCurrentUser (.error (.backend 0)) (.ok [])).result = .ok none ∧
    (getCurrentUser (.error (.backend 0)) (.ok [])).result ≠
      .error (.backend 0) := by
  refine ⟨rfl, ?_⟩
  simp [getCurrentUser]

/-- In `uploadFile`, when the rollback deletion itself fails, the
deletion error replaces the original document-write error: only the
deletion error is logged (by the outer catch) and rethrown. -/
theorem uploadFile_err_rollback (e d : AppError) (bf : BucketFile) :
    (uploadFile (.ok bf) (.error e) (.error d)).result = .error d ∧
    (uploadFile (.ok bf) (.error e) (.error d)).logs =
      [⟨d, some (str "Failed to upload file")⟩] := by
  simp [uploadFile]

/-- A `createEmailToken` failure inside `createAccount` is logged once,
by `sendEmailOTP`'s own catch, and then propagates. -/
theorem createAccount_err_otp_logged (e : AppError) (email : JStr)
    (docs : List UserDoc) (createRes : Except AppError UserDoc) :
    (createAccount email (.ok docs) (.error e) createRes).result = .error e ∧
    (createAccount email (.ok docs) (.error e) createRes).logs =
      [⟨e, some (str "Failed to send email OTP")⟩] := by
  simp [createAccount, getUserByEmail, sendEmailOTP, handleError]

/-- A `createDocument` failure inside `createAccount` (new user, OTP sent
with a non-empty userId) propagates with no log entry at all:
`createAccount` has no try/catch of its own. -/
theorem createAccount_err_doc_unlogged (e : AppError) (email sid : JStr)
    (c : Char) (cs : JStr) :
    (createAccount email (.ok []) (.ok ⟨sid, c :: cs⟩) (.error e)).result =
      .error e ∧
    (createAccount email (.ok []) (.ok ⟨sid, c :: cs⟩) (.error e)).logs = [] := by
  simp [createAccount, getUserByEmail, sendEmailOTP]

/-- C2 (amended): backend errors in server actions whose catch blocks use
`handleError` are logged and rethrown unchanged to the caller, and no
backend call is ever attempted twice (no retry).  The deviations:
`getCurrentUser`'s catch only logs and swallows the error, returning
undefined; `createAccount` has no try/catch, so its user-lookup and
user-document-creation errors propagate unlogged (its OTP sub-call still
logs before propagating); in `uploadFile`, a failing rollback deletion
replaces the original document-write error, which is then neither logged
nor rethrown; and `signOutUser`'s finally-block redirect supersedes the
rethrown (still logged) error. -/
theorem server_actions_error_handling :
    (∀ e, logsAndRethrows (sendEmailOTP (.error e)) e
      (str "Failed to send email OTP")) ∧
    (∀ e, logsAndRethrows (verifySecret (.error e)) e
      (str "Failed to verify OTP")) ∧
    (∀ e email tokenRes, logsAndRethrows (signInUser email (.error e) tokenRes)
      e (str "Failed to sign in user")) ∧
    (∀ e email u rest, logsAndRethrows
      (signInUser email (.ok (u :: rest)) (.error e)) e
      (str "Failed to sign in user")) ∧
    (∀ e cd df, logsAndRethrows (uploadFile (.error e) cd df) e
      (str "Failed to upload file")) ∧
    (∀ e bf, logsAndRethrows (uploadFile (.ok bf) (.error e) (.ok ())) e
      (str "Failed to upload file")) ∧
    (∀ e d bf, (uploadFile (.ok bf) (.error e) (.error d)).result = .error d ∧
      (uploadFile (.ok bf) (.error e) (.error d)).logs =
        [⟨d, some (str "Failed to upload file")⟩]) ∧
    (∀ e acct u rest types searchText sort limit, logsAndRethrows
      (getFiles (.ok acct) (.ok (u :: rest)) (.error e) types searchText sort
        limit) e (str "Failed to get files")) ∧
    (∀ e fileId name ext, logsAndRethrows (renameFile fileId name ext (.error e))
      e (str "Failed to rename file")) ∧
    (∀ e fileId emails, logsAndRethrows
      (updateFileUsers fileId emails (.error e)) e
      (str "Failed to update file users")) ∧
    (∀ e fileId bucketFileId dbr, logsAndRethrows
      (deleteFile fileId bucketFileId (.error e) dbr) e
      (str "Failed to delete file")) ∧
    (∀ e fileId bucketFileId, logsAndRethrows
      (deleteFile fileId bucketFileId (.ok ()) (.error e)) e
      (str "Failed to delete file")) ∧
    (∀ e acct u rest, logsAndRethrows
      (getTotalSpaceUsed (.ok acct) (.ok (u :: rest)) (.error e)) e
      (str "Error calculating total space used")) ∧
    (∀ e listRes, (getCurrentUser (.error e) listRes).result = .ok none ∧
      LogEntry.mk e none ∈ (getCurrentUser (.error e) listRes).logs) ∧
    (∀ e acct, (getCurrentUser (.ok acct) (.error e)).result = .ok none ∧
      LogEntry.mk e none ∈ (getCurrentUser (.ok acct) (.error e)).logs) ∧
    (∀ e email tokenRes createRes,
      (createAccount email (.error e) tokenRes createRes).result = .error e ∧
      (createAccount email (.error e) tokenRes createRes).logs = []) ∧
    (∀ e email docs createRes,
      (createAccount email (.ok docs) (.error e) createRes).result = .error e ∧
      (createAccount email (.ok docs) (.error e) createRes).logs =
        [⟨e, some (str "Failed to send email OTP")⟩]) ∧
    (∀ (e : AppError) (email sid : JStr) (c : Char) (cs : JStr),
      (createAccount email (.ok []) (.ok ⟨sid, c :: cs⟩) (.error e)).result =
        .error e ∧
      (createAccount email (.ok []) (.ok ⟨sid, c :: cs⟩) (.error e)).logs =
        []) ∧
    (∀ deleteRes, (signOutUser deleteRes).result =
      .error (.redirectSignal (str "/sign-in"))) ∧
    (∀ e, LogEntry.mk e (some (str "Failed to sign out user")) ∈
      (signOutUser (.error e)).logs) ∧
    (∀ r, (sendEmailOTP r).ops.Nodup) ∧
    (∀ r, (verifySecret r).ops.Nodup) ∧
    (∀ a l, (getCurrentUser a l).ops.Nodup) ∧
    (∀ email l t, (signInUser email l t).ops.Nodup) ∧
    (∀ email l t c, (createAccount email l t c).ops.Nodup) ∧
    (∀ d, (signOutUser d).ops.Nodup) ∧
    (∀ cf cd df, (uploadFile cf cd df).ops.Nodup) ∧
    (∀ a ul f types searchText sort limit,
      (getFiles a ul f types searchText sort limit).ops.Nodup) ∧
    (∀ fileId name ext u, (renameFile fileId name ext u).ops.Nodup) ∧
    (∀ fileId emails u, (updateFileUsers fileId emails u).ops.Nodup) ∧
    (∀ fileId bucketFileId d1 d2,
      (deleteFile fileId bucketFileId d1 d2).ops.Nodup) ∧
    (∀ a ul f, (getTotalSpaceUsed a ul f).ops.Nodup) :=
  ⟨sendEmailOTP_err, verifySecret_err, signInUser_err_lookup,
   signInUser_err_otp, uploadFile_err_blob, uploadFile_err_doc,
   uploadFile_err_rollback, getFiles_err,
   renameFile_err, updateFileUsers_err, deleteFile_err_doc,
   deleteFile_err_blob, getTotalSpaceUsed_err, getCurrentUser_err_account,
   getCurrentUser_err_list, createAccount_err_unlogged,
   createAccount_err_otp_logged, createAccount_err_doc_unlogged,
   signOutUser_redirect,
   signOutUser_logs, sendEmailOTP_nodup, verifySecret_nodup,
   getCurrentUser_nodup, signInUser_nodup, createAccount_nodup,
   signOutUser_nodup, uploadFile_nodup, getFiles_nodup, renameFile_nodup,
   updateFileUsers_nodup, deleteFile_nodup, getTotalSpaceUsed_nodup⟩

/-- Companion evaluation of C2's amended theorem at a concrete error. -/
theorem server_actions_error_handling_witness :
    logsAndRethrows (sendEmailOTP (.error (.backend 0))) (.backend 0)
      (str "Failed to send email OTP") :=
  server_actions_error_handling.1 (.backend 0)

/-- C3: when the metadata document write fails after the blob was stored
(and the best-effort deletion succeeds), `uploadFile` deletes exactly the
uploaded blob and rethrows the document-write error; every backend call
is attempted at most once (no retry). -/
theorem uploadFile_rollback (bucketFile : BucketFile) (e : AppError) :
    (uploadFile (.ok bucketFile) (.error e) (.ok ())).ops =
      [.createBucketFile, .createFileDoc, .deleteBucketFile bucketFile.id] ∧
    (uploadFile (.ok bucketFile) (.error e) (.ok ())).result = .error e ∧
    (uploadFile (.ok bucketFile) (.error e) (.ok ())).logs =
      [⟨e, some (str "Failed to create file document")⟩,
       ⟨e, some (str "Failed to upload file")⟩] ∧
    (∀ cf cd df, (uploadFile cf cd df).ops.Nodup) :=
  ⟨rfl, rfl, rfl, uploadFile_nodup⟩

/-- Companion evaluation of C3's theorem at a concrete upload. -/
theorem uploadFile_rollback_witness :
    (uploadFile (.ok ⟨str "bf1", str "a.txt", 10⟩) (.error (.backend 7))
      (.ok ())).ops =
      [.createBucketFile, .createFileDoc, .deleteBucketFile (str "bf1")] :=
  (uploadFile_rollback ⟨str "bf1", str "a.txt", 10⟩ (.backend 7)).1

theorem getUsage_setUsage (ts : TotalSpace) (t t' : FileType) (u : TypeUsage) :
    (ts.setUsage t u).getUsage t' = if t' = t then u else ts.getUsage t' := by
  cases t <;> cases t' <;> simp [TotalSpace.setUsage, TotalSpace.getUsage]

theorem getUsage_set_used (ts : TotalSpace) (x : ℕ) (t : FileType) :
    TotalSpace.getUsage { ts with used := x } t = ts.getUsage t := by
  cases t <;> rfl

theorem setUsage_used (ts : TotalSpace) (t : FileType) (u : TypeUsage) :
    (ts.setUsage t u).used = ts.used := by
  cases t <;> rfl

theorem setUsage_all (ts : TotalSpace) (t : FileType) (u : TypeUsage) :
    (ts.setUsage t u).all = ts.all := by
  cases t <;> rfl

theorem initial_getUsage (t : FileType) :
    initialTotalSpace.getUsage t = ⟨0, none⟩ := by
  cases t <;> rfl

theorem stepFile_used (ts : TotalSpace) (f : FileDoc) :
    (stepFile ts f).used = ts.used + f.size := by
  simp [stepFile, setUsage_used]

theorem stepFile_all (ts : TotalSpace) (f : FileDoc) :
    (stepFile ts f).all = ts.all := by
  simp [stepFile, setUsage_all]

theorem stepFile_getUsage (ts : TotalSpace) (f : FileDoc) (t : FileType) :
    (stepFile ts f).getUsage t =
      if f.type = t then
        ⟨(ts.getUsage t).size + f.size,
         updLatest (ts.getUsage t).latestDate f.updatedAt⟩
      else ts.getUsage t := by
  rcases eq_or_ne f.type t with h | h
  · subst h
    simp [stepFile, getUsage_set_used, getUsage_setUsage]
  · simp [stepFile, getUsage_set_used, getUsage_setUsage, h]
    intro hh
    exact absurd hh.symm h

theorem foldl_stepFile_used (files : List FileDoc) :
    ∀ ts : TotalSpace, (files.foldl stepFile ts).used =
      ts.used + (files.map FileDoc.size).sum := by
  induction files with
  | nil => intro ts; simp
  | cons f fs ih =>
    intro ts
    rw [List.foldl_cons, ih, stepFile_used]
    simp
    omega

theorem foldl_stepFile_all (files : List FileDoc) :
    ∀ ts : TotalSpace, (files.foldl stepFile ts).all = ts.all := by
  induction files with
  | nil => intro ts; rfl
  | cons f fs ih =>
    intro ts
    rw [List.foldl_cons, ih, stepFile_all]

theorem foldl_stepFile_getUsage_size (files : List FileDoc) :
    ∀ (ts : TotalSpace) (t : FileType),
      ((files.foldl stepFile ts).getUsage t).size =
        (ts.getUsage t).size +
          ((files.filter (fun f => f.type == t)).map FileDoc.size).sum := by
  induction files with
  | nil => intros; simp
  | cons f fs ih =>
    intro ts t
    rw [List.foldl_cons, ih, stepFile_getUsage]
    by_cases h : f.type = t
    · simp [h]
      omega
    · simp [h]

theorem foldl_stepFile_getUsage_latest (files : List FileDoc) :
    ∀ (ts : TotalSpace) (t : FileType),
      ((files.foldl stepFile ts).getUsage t).latestDate =
        ((files.filter (fun f => f.type == t)).map FileDoc.updatedAt).foldl
          updLatest ((ts.getUsage t).latestDate) := by
  induction files with
  | nil => intros; simp
  | cons f fs ih =>
    intro ts t
    rw [List.foldl_cons, ih, stepFile_getUsage]
    by_cases h : f.type = t <;> simp [h]

theorem fiveSum_foldl_stepFile (files : List FileDoc) :
    ∀ ts : TotalSpace,
      (files.foldl stepFile ts).image.size +
        (files.foldl stepFile ts).document.size +
        (files.foldl stepFile ts).video.size +
        (files.foldl stepFile ts).audio.size +
        (files.foldl stepFile ts).other.size =
      ts.image.size + ts.document.size + ts.video.size + ts.audio.size +
        ts.other.size + (files.map FileDoc.size).sum := by
  induction files with
  | nil => intro ts; simp
  | cons f fs ih =>
    intro ts
    rw [List.foldl_cons, ih]
    cases hf : f.type <;>
      simp [stepFile, TotalSpace.setUsage, TotalSpace.getUsage, hf] <;> omega

theorem updLatest_ne_none (acc : Option ℕ) (d : ℕ) : updLatest acc d ≠ none := by
  rcases acc with _ | m
  · simp [updLatest]
  · simp only [updLatest]
    split <;> simp

theorem foldl_updLatest_eq_none (l : List ℕ) :
    ∀ acc, l.foldl updLatest acc = none ↔ acc = none ∧ l = [] := by
  induction l with
  | nil => intro acc; simp
  | cons d ds ih =>
    intro acc
    rw [List.foldl_cons, ih]
    simp [updLatest_ne_none]

theorem foldl_updLatest_greatest (l : List ℕ) :
    ∀ acc d, l.foldl updLatest acc = some d →
      (d ∈ l ∨ acc = some d) ∧ (∀ x ∈ l, x ≤ d) ∧
      (∀ m, acc = some m → m ≤ d) := by
  induction l with
  | nil =>
    intro acc d h
    simp only [List.foldl_nil] at h
    refine ⟨Or.inr h, by simp, fun m hm => ?_⟩
    rw [h] at hm
    injection hm with hh
    omega
  | cons x xs ih =>
    intro acc d h
    rw [List.foldl_cons] at h
    obtain ⟨h1, h2, h3⟩ := ih (updLatest acc x) d h
    have hx : x ≤ d := by
      rcases acc with _ | m
      · exact h3 x rfl
      · simp only [updLatest] at h3
        by_cases hmx : m < x
        · exact h3 x (by rw [if_pos hmx])
        · exact le_trans (le_of_not_lt hmx) (h3 m (by rw [if_neg hmx]))
    refine ⟨?_, ?_, ?_⟩
    · rcases h1 with hin | hacc
      · exact Or.inl (List.mem_cons_of_mem x hin)
      · rcases acc with _ | m
        · simp only [updLatest] at hacc
          injection hacc with hh
          exact Or.inl (hh ▸ List.mem_cons_self x xs)
        · simp only [updLatest] at hacc
          by_cases hmx : m < x
          · rw [if_pos hmx] at hacc
            injection hacc with hh
            exact Or.inl (hh ▸ List.mem_cons_self x xs)
          · rw [if_neg hmx] at hacc
            exact Or.inr hacc
    · intro y hy
      rcases List.mem_cons.mp hy with hy | hy
      · exact hy ▸ hx
      · exact h2 y hy
    · intro m hm
      subst hm
      simp only [updLatest] at h3
      by_cases hmx : m < x
      · exact le_trans (le_of_lt hmx) (h3 x (by rw [if_pos hmx]))
      · exact h3 m (by rw [if_neg hmx])

/-- C4: `getTotalSpaceUsed` folds over the files owned by the current
user: `used` equals the sum of all file sizes and equals the sum of the
five per-type sizes; per type, `latestDate` is the greatest `$updatedAt`
among that type's files (`none`, the empty string, when there are none);
and `all` is the constant 2 * 1024 * 1024 * 1024. -/
theorem getTotalSpaceUsed_aggregates (acct : Account) (u : UserDoc)
    (files : List FileDoc) :
    (getTotalSpaceUsed (.ok acct) (.ok [u]) (.ok files)).result =
      .ok (totalSpaceOf files) ∧
    (totalSpaceOf files).used = (files.map FileDoc.size).sum ∧
    (totalSpaceOf files).used =
      (totalSpaceOf files).image.size + (totalSpaceOf files).document.size +
      (totalSpaceOf files).video.size + (totalSpaceOf files).audio.size +
      (totalSpaceOf files).other.size ∧
    (totalSpaceOf files).all = 2 * 1024 * 1024 * 1024 ∧
    (∀ t : FileType,
      ((totalSpaceOf files).getUsage t).size =
        ((files.filter (fun f => f.type == t)).map FileDoc.size).sum ∧
      (((totalSpaceOf files).getUsage t).latestDate = none ↔
        files.filter (fun f => f.type == t) = []) ∧
      (∀ d, ((totalSpaceOf files).getUsage t).latestDate = some d →
        (∃ f ∈ files, f.type = t ∧ f.updatedAt = d) ∧
        (∀ f ∈ files, f.type = t → f.updatedAt ≤ d))) := by
  refine ⟨rfl, ?_, ?_, ?_, ?_⟩
  · rw [totalSpaceOf, foldl_stepFile_used]
    simp [initialTotalSpace]
  · rw [totalSpaceOf, foldl_stepFile_used, fiveSum_foldl_stepFile]
    simp [initialTotalSpace]
  · rw [totalSpaceOf, foldl_stepFile_all]
    rfl
  · intro t
    refine ⟨?_, ?_, ?_⟩
    · rw [totalSpaceOf, foldl_stepFile_getUsage_size, initial_getUsage]
      simp
    · rw [totalSpaceOf, foldl_stepFile_getUsage_latest, initial_getUsage,
        foldl_updLatest_eq_none]
      simp
    · intro d hd
      rw [totalSpaceOf, foldl_stepFile_getUsage_latest, initial_getUsage] at hd
      obtain ⟨h1, h2, h3⟩ := foldl_updLatest_greatest _ _ _ hd
      simp only at h1
      rcases h1 with h1 | h1
      · constructor
        · rcases List.mem_map.mp h1 with ⟨f, hf, hfd⟩
          rcases List.mem_filter.mp hf with ⟨hmem, htype⟩
          exact ⟨f, hmem, by simpa using htype, hfd⟩
        · intro f hf hft
          exact h2 _
            (List.mem_map_of_mem _ (List.mem_filter.mpr ⟨hf, by simp [hft]⟩))
      · simp at h1

theorem baseQueries_no_order (currentUser : UserDoc) (types : List JStr)
    (searchText : JStr) (limit : Option ℕ) :
    (baseQueries currentUser types searchText limit).countP isOrderClause = 0 := by
  simp only [baseQueries]
  rcases limit with _ | n
  · split_ifs <;>
      simp [List.countP_append, List.countP_cons, isOrderClause]
  · by_cases hn : n = 0 <;> split_ifs <;>
      simp [List.countP_append, List.countP_cons, isOrderClause, hn]

/-- For a truthy `sort` whose split has exactly two chunks,
`createQueries` is the base queries plus one ordering clause. -/
theorem createQueries_sort_eq (currentUser : UserDoc) (types : List JStr)
    (searchText : JStr) (limit : Option ℕ) {sort field order : JStr}
    (hsort : sort ≠ []) (hsplit : splitOnChar '-' sort = [field, order]) :
    createQueries currentUser types searchText sort limit =
      baseQueries currentUser types searchText limit ++
        [if order = str "asc" then Query.orderAsc field
         else Query.orderDesc field] := by
  simp [createQueries, hsort, hsplit]

/-- C8: for a sort string of the form "field-order", `createQueries`
appends exactly one ordering clause, on `field`, ascending exactly when
`order` is "asc" (the base queries contain no ordering clause); and the
`sort` parameter of `getFiles` defaults to "$createdAt-desc", whose
resulting last clause is a descending order on "$createdAt". -/
theorem createQueries_sort_parsing :
    (∀ (currentUser : UserDoc) (types : List JStr) (searchText : JStr)
        (limit : Option ℕ) (field order : JStr),
        '-' ∉ field → '-' ∉ order →
        createQueries currentUser types searchText (field ++ '-' :: order)
            limit =
          baseQueries currentUser types searchText limit ++
            [if order = str "asc" then Query.orderAsc field
             else Query.orderDesc field] ∧
        (baseQueries currentUser types searchText limit).countP
          isOrderClause = 0) ∧
    getFilesDefaultSort = str "$createdAt-desc" ∧
    (∀ (currentUser : UserDoc) (types : List JStr) (searchText : JStr)
        (limit : Option ℕ),
      (createQueries currentUser types searchText getFilesDefaultSort
          limit).getLast? = some (Query.orderDesc (str "$createdAt"))) := by
  refine ⟨?_, rfl, ?_⟩
  · intro currentUser types searchText limit field order hf ho
    refine ⟨?_, baseQueries_no_order currentUser types searchText limit⟩
    exact createQueries_sort_eq currentUser types searchText limit
      (by simp) (splitOnChar_append hf ho)
  · intro currentUser types searchText limit
    rw [createQueries_sort_eq currentUser types searchText limit
      (by decide)
      (by decide : splitOnChar '-' getFilesDefaultSort =
        [str "$createdAt", str "desc"])]
    rw [List.getLast?_append_cons]
    simp [str]

/-- Companion evaluation of C8's theorem for the default sort. -/
theorem createQueries_sort_parsing_witness :
    (createQueries ⟨str "u1", str "a1", str "u@example.com"⟩ [] []
        getFilesDefaultSort none).getLast? =
      some (Query.orderDesc (str "$createdAt")) :=
  createQueries_sort_parsing.2.2 ⟨str "u1", str "a1", str "u@example.com"⟩
    [] [] none

/-- Companion evaluation of C4's theorem on a concrete file list. -/
theorem getTotalSpaceUsed_aggregates_witness :
    (totalSpaceOf [⟨FileType.image, 5, 100⟩, ⟨FileType.image, 7, 50⟩]).used =
      ([⟨FileType.image, 5, 100⟩, ⟨FileType.image, 7, 50⟩].map
        FileDoc.size).sum :=
  (getTotalSpaceUsed_aggregates ⟨str "acct"⟩ ⟨str "u1", str "a1", str "e"⟩
    [⟨FileType.image, 5, 100⟩, ⟨FileType.image, 7, 50⟩]).2.1
